import Mathlib

/-!
Shallow embedding of `bettingapp.py`: the data-resolution pipeline of a
sports over/under predictor.  The embedded parts are

* the Python float values that the pipeline can produce (`PyFloat`:
  rationals plus the IEEE special values that division by zero yields);
* `difflib`'s `SequenceMatcher`/`get_close_matches`, as used by
  `find_closest_match`;
* the pure ingestion step of `fetch_data_from_sheets` (empty check,
  required-column validation, numeric coercion, indexing by team) together
  with the league-key normalization and the process-wide cache, with the
  remote spreadsheet read abstracted as an oracle `Remote`;
* `calculate_predicted` with its two formula branches;
* the `index` route's POST/GET handling of the per-session history list.
-/

namespace BettingApp

/-! ### Python float values

Numeric cells are exact rationals after ingestion; the only non-finite
values the pipeline can produce come from division (`PF / G` with `G = 0`).
`PyFloat` models a Python float as an exact rational or one of the IEEE
special values.  Rounding and signed zero are not modelled. -/

inductive PyFloat where
  | fin : ℚ → PyFloat
  | inf : PyFloat
  | ninf : PyFloat
  | nan : PyFloat
deriving DecidableEq

/-- Addition on `PyFloat` with IEEE special-value propagation but the
finite parts added exactly, with no rounding.  This is faithful to
numpy float64 addition exactly when the sum is representable, and in
every conclusion that does not depend on the final ulp (which value is
non-finite, which branch runs, what an integer-valued result is).
Statements that do hinge on the rounding of re-associated sums must
use `PyFloat.addF64` below, which rounds each operation. -/
def PyFloat.add : PyFloat → PyFloat → PyFloat
  | nan, _ => nan
  | _, nan => nan
  | inf, ninf => nan
  | ninf, inf => nan
  | inf, _ => inf
  | _, inf => inf
  | ninf, _ => ninf
  | _, ninf => ninf
  | fin a, fin b => fin (a + b)

/-- IEEE division on `PyFloat` (exact in the finite case): a positive
finite value divided by zero is `inf`, a negative one is `ninf`, and
`0 / 0` is `nan` — Python/numpy array semantics, where no exception is
raised. -/
def PyFloat.div : PyFloat → PyFloat → PyFloat
  | nan, _ => nan
  | _, nan => nan
  | inf, inf => nan
  | inf, ninf => nan
  | ninf, inf => nan
  | ninf, ninf => nan
  | inf, fin b => if b < 0 then ninf else inf
  | ninf, fin b => if b < 0 then inf else ninf
  | fin _, inf => fin 0
  | fin _, ninf => fin 0
  | fin a, fin b =>
      if b = 0 then (if 0 < a then inf else if a < 0 then ninf else nan)
      else fin (a / b)

instance : Add PyFloat := ⟨PyFloat.add⟩

instance : Div PyFloat := ⟨PyFloat.div⟩

theorem PyFloat.add_def (x y : PyFloat) : x + y = PyFloat.add x y := rfl

theorem PyFloat.div_def (x y : PyFloat) : x / y = PyFloat.div x y := rfl

/-! ### IEEE binary64 rounding

`PyFloat.add`/`PyFloat.div` carry the finite parts exactly, which is
faithful to the program wherever a result does not depend on the last
ulp (special-value propagation, branch selection, zero coercion,
integer-valued stats).  Where the last ulp does matter — the symmetry
claim about re-associated sums — the operations below model numpy
float64 exactly: every value is rounded to the nearest representable
binary64 (ties to even, 53-bit significand), and each operation rounds
its exact result once.  Subnormals and overflow are outside the range
of every value in this development and are not modelled. -/

/-- `2^e` as a rational, for an integer exponent. -/
def twoZpow (e : ℤ) : ℚ :=
  if 0 ≤ e then ((2 ^ e.toNat : ℕ) : ℚ) else 1 / ((2 ^ (-e).toNat : ℕ) : ℚ)

/-- Walk to the binary exponent of a positive rational: the `e` with
`2^e ≤ s < 2^(e+1)`.  The walk moves one step per unit of fuel; 1100
steps cover the entire binary64 range. -/
def findExpAux : Nat → ℤ → ℚ → ℤ
  | 0, e, _ => e
  | fuel + 1, e, s =>
    if s < twoZpow e then findExpAux fuel (e - 1) s
    else if twoZpow (e + 1) ≤ s then findExpAux fuel (e + 1) s
    else e

def findExp (s : ℚ) : ℤ := findExpAux 1100 0 s

/-- Round to the nearest integer, ties to even. -/
def roundHalfEven (x : ℚ) : ℤ :=
  if x - ⌊x⌋ < 1 / 2 then ⌊x⌋
  else if 1 / 2 < x - ⌊x⌋ then ⌊x⌋ + 1
  else if ⌊x⌋ % 2 = 0 then ⌊x⌋ else ⌊x⌋ + 1

/-- The binary64 value nearest a rational (round to nearest, ties to
even): scale the significand into `[2^52, 2^53)`, round it to an
integer, and scale back. -/
def roundF64 (q : ℚ) : ℚ :=
  if q = 0 then 0
  else
    let s := |q|
    let e := findExp s
    let scale := twoZpow (52 - e)
    let m := roundHalfEven (s * scale)
    (if q < 0 then -1 else 1) * ((m : ℚ) / scale)

/-- numpy float64 addition: the exact sum of two finite values,
correctly rounded; special values as in `PyFloat.add`. -/
def PyFloat.addF64 (x y : PyFloat) : PyFloat :=
  match x, y with
  | .fin a, .fin b => .fin (roundF64 (a + b))
  | _, _ => x + y

/-- numpy float64 division: the exact quotient of two finite values,
correctly rounded; division by zero and special values as in
`PyFloat.div`. -/
def PyFloat.divF64 (x y : PyFloat) : PyFloat :=
  match x, y with
  | .fin a, .fin b =>
      if b = 0 then (if 0 < a then .inf else if a < 0 then .ninf else .nan)
      else .fin (roundF64 (a / b))
  | _, _ => x / y

/-! ### difflib `SequenceMatcher`

`find_closest_match` calls `difflib.get_close_matches(user_input,
team_list, n=1, cutoff=0.6)`.  `get_close_matches` keeps every candidate
whose `real_quick_ratio`, `quick_ratio` and `ratio` all reach the cutoff
and returns the best scorer (for `n=1`, Python's `max` over
`(score, candidate)` pairs, compared lexicographically).  The similarity
score is `2*M/T` where `M` is the total size of the matching blocks found
by `find_longest_match` recursion and `T` the combined length.  The
autojunk heuristic only alters scoring for sequences of at least 200
characters; theorems about scoring therefore restrict the input to
shorter strings, where this embedding is exact. -/

/-- Length of the longest common prefix of two character lists. -/
def commonPrefixLen : List Char → List Char → Nat
  | a :: as, b :: bs => if a = b then commonPrefixLen as bs + 1 else 0
  | _, _ => 0

/-- `find_longest_match` over whole sequences: the longest block
`a[i:i+k] = b[j:j+k]`, ties broken by earliest start in `a`, then in `b`
(difflib's documented tie-break).  Returns `(i, j, k)`. -/
def bestBlock (a b : List Char) : Nat × Nat × Nat :=
  (List.range a.length).foldl
    (fun best i =>
      (List.range b.length).foldl
        (fun best j =>
          let k := commonPrefixLen (a.drop i) (b.drop j)
          if best.2.2 < k then (i, j, k) else best)
        best)
    (0, 0, 0)

/-- Total matched size `M` over the `get_matching_blocks` recursion:
take the longest block, then recurse on the parts to its left and to its
right.  Each recursive call strictly shrinks the combined length, so
fuel `a.length + b.length` always suffices. -/
def totalMatchedAux : Nat → List Char → List Char → Nat
  | 0, _, _ => 0
  | fuel + 1, a, b =>
      match bestBlock a b with
      | (i, j, k) =>
        if k = 0 then 0
        else
          k + totalMatchedAux fuel (a.take i) (b.take j)
            + totalMatchedAux fuel (a.drop (i + k)) (b.drop (j + k))

def totalMatched (a b : List Char) : Nat :=
  totalMatchedAux (a.length + b.length) a b

/-- `_calculate_ratio(matches, length)`: `2*matches/length`, or `1.0`
for two empty sequences. -/
def calcScore (m t : Nat) : ℚ :=
  if t = 0 then 1 else 2 * (m : ℚ) / (t : ℚ)

/-- `SequenceMatcher.ratio()` for `a = seq1` (candidate), `b = seq2`
(user input). -/
def score (a b : List Char) : ℚ :=
  calcScore (totalMatched a b) (a.length + b.length)

/-- `SequenceMatcher.quick_ratio()`: multiset intersection upper bound. -/
def quickScore (a b : List Char) : ℚ :=
  calcScore (a.dedup.foldl (fun acc c => acc + min (a.count c) (b.count c)) 0)
    (a.length + b.length)

/-- `SequenceMatcher.real_quick_ratio()`. -/
def realQuickScore (a b : List Char) : ℚ :=
  calcScore (min a.length b.length) (a.length + b.length)

/-- Python tuple comparison `(score, name) > (score, name)`:
lexicographic, strings by code points. -/
def pairGtB (p q : ℚ × String) : Bool :=
  decide (q.1 < p.1) || (decide (q.1 = p.1) && decide (q.2 < p.2))

/-- Python's `max` over a list (as used by `heapq.nlargest(1, ...)`):
the first element wins ties. -/
def max1 : List (ℚ × String) → Option (ℚ × String)
  | [] => none
  | x :: xs => some (xs.foldl (fun best y => if pairGtB y best then y else best) x)

/-- `difflib.get_close_matches(word, possibilities, n=1, cutoff)`:
filter by the three ratio tests, then take the single largest
`(score, candidate)` pair. -/
def get_close_matches1 (word : String) (possibilities : List String)
    (cutoff : ℚ) : Option String :=
  let scored := possibilities.filterMap (fun x =>
    if realQuickScore x.data word.data ≥ cutoff ∧
       quickScore x.data word.data ≥ cutoff ∧
       score x.data word.data ≥ cutoff
    then some (score x.data word.data, x) else none)
  (max1 scored).map Prod.snd

/-- `find_closest_match` (source lines 140–145): fuzzy matching with the
hardcoded cutoff `0.6`, no normalization of either side. -/
def find_closest_match (user_input : String) (team_list : List String) :
    Option String :=
  get_close_matches1 user_input team_list (3 / 5)

/-! ### Python string normalization

`str.lower()` and `str.strip()` on the character list (ASCII case
mapping and ASCII whitespace, which covers league keys and team
names). -/

def pyLower (s : String) : String := ⟨s.data.map Char.toLower⟩

def isPySpace (c : Char) : Bool :=
  c = ' ' || c = '\t' || c = '\n' || c = '\r' || c = '\x0b' || c = '\x0c'

def pyStrip (s : String) : String :=
  ⟨((s.data.dropWhile isPySpace).reverse.dropWhile isPySpace).reverse⟩

/-! ### Spec-side resolver notions

Modelled from the spec: the spec's resolver normalizes both sides
(lowercase, trimmed) and runs a containment pass before any approximate
matching.  No such normalization or containment pass exists in the
source; these definitions state the spec's own terms so that the claims
about them can be compared with `find_closest_match`. -/

/-- Modelled from the spec: "normalized" means lowercased and trimmed. -/
def specNormalize (s : String) : String := pyLower (pyStrip s)

/-- Modelled from the spec: Python-style containment `pat in container`
(`true` when `pat` occurs as a contiguous substring). -/
def strContains (container pat : String) : Bool :=
  (List.range (container.data.length + 1)).any
    (fun i => (container.data.drop i).take pat.data.length = pat.data)

/-! ### Sheet ingestion, league keys and the cache

`fetch_data_from_sheets` (source lines 36–98).  The remote spreadsheet
read is abstracted as an oracle from a range string to the returned
rows of text cells; credentials handling is glue outside the core.  The
returned `remoteCalls` counts how many remote reads the call performed. -/

def SHEET_RANGES : List (String × String) :=
  [("NCAAF", "NCAAF!A1:D135"), ("NBA", "NBA!A1:D31"), ("NFL", "NFL!A1:D135")]

/-- Required column schema (source line 82): per-game-average leagues
(`G`, `PF`, `PA`) vs the NBA's pre-averaged columns. -/
def requiredColumns (actual_sheet_name : String) : List String :=
  if actual_sheet_name ≠ "NBA" then ["Team", "G", "PF", "PA"]
  else ["Team", "PPG", "OPP PPG"]

/-- Digits-only parse of a nonempty character list. -/
def parseDigits : List Char → Option Nat
  | [] => none
  | cs =>
    if cs.all Char.isDigit then
      some (cs.foldl (fun n c => 10 * n + (c.toNat - 48)) 0)
    else none

/-- Decimal-literal parse: optional sign, then digits with an optional
single decimal point (`"1."` and `".5"` are accepted, `"."` is not).
Models the numeric grammar accepted by `pd.to_numeric` for plain
decimal cells; exponent notation is not modelled. -/
def parseDecimal (cs : List Char) : Option ℚ :=
  let signAndRest : ℚ × List Char :=
    match cs with
    | '-' :: r => (-1, r)
    | '+' :: r => (1, r)
    | r => (1, r)
  let sign := signAndRest.1
  let rest := signAndRest.2
  if '.' ∈ rest then
    let intPart := rest.takeWhile (· ≠ '.')
    let fracPart := (rest.dropWhile (· ≠ '.')).tail
    if '.' ∈ fracPart then none
    else if intPart = [] ∧ fracPart = [] then none
    else
      match (if intPart = [] then some 0 else parseDigits intPart),
            (if fracPart = [] then some 0 else parseDigits fracPart) with
      | some n, some f =>
          some (sign * ((n : ℚ) + (f : ℚ) / (10 : ℚ) ^ fracPart.length))
      | _, _ => none
  else (parseDigits rest).map (fun n => sign * (n : ℚ))

def parseNumeric (s : String) : Option ℚ := parseDecimal (pyStrip s).data

/-- `pd.to_numeric(cell, errors="coerce").fillna(0)` on one cell
(source line 90): a missing cell or a failed parse becomes `0`. -/
def coerceCell (cell : Option String) : ℚ := (cell.bind parseNumeric).getD 0

/-- The same cell as pandas actually stores it: a binary64, i.e. the
coerced value correctly rounded (`strtod` rounds a decimal literal to
the nearest double). -/
def coerceCellF64 (cell : Option String) : ℚ := roundF64 (coerceCell cell)

/-- One row of an ingested table: the `Team` key (kept as text) plus the
coerced numeric cells of every other column, in column order. -/
structure Row where
  team : String
  cells : List (String × ℚ)
deriving DecidableEq

abbrev DataTable := List Row

/-- The non-`Team` cells of one raw row: walk the header from column
index `i`, skip `"Team"`, coerce everything else (source lines 88–90). -/
def rowCells (i : Nat) (header : List String) (raw : List String) :
    List (String × ℚ) :=
  match header with
  | [] => []
  | c :: cs =>
    if c = "Team" then rowCells (i + 1) cs raw
    else (c, coerceCell (raw.get? i)) :: rowCells (i + 1) cs raw

/-- The `ValueError`s that `fetch_data_from_sheets` can raise (source
lines 48, 78, 85), carrying the same identifying data as the Python
message strings. -/
inductive FetchError where
  | unknownLeague (sheet_name : String)
  | emptyDataset (actual_sheet_name : String)
  | missingColumn (col : String)
deriving DecidableEq

/-- Pure ingestion step of `fetch_data_from_sheets` (source lines
77–93): empty-values check, header split, required-column validation,
numeric coercion of every non-`Team` column, rows indexed by the `Team`
cell.  A raw row shorter than the header simply has missing cells. -/
def processTable (actual_sheet_name : String) (values : List (List String)) :
    Except FetchError DataTable :=
  match values with
  | [] => .error (.emptyDataset actual_sheet_name)
  | header :: dataRows =>
    match (requiredColumns actual_sheet_name).find?
        (fun c => ¬ header.contains c) with
    | some c => .error (.missingColumn c)
    | none =>
      .ok (dataRows.map (fun raw =>
        { team := (raw.get? (header.indexOf "Team")).getD ""
          cells := rowCells 0 header raw }))

/-- The remote spreadsheet read, abstracted: range string ↦ returned
rows of text cells (`values` in the source). -/
abbrev Remote := String → List (List String)

/-- The process-wide `sheet_data_cache` (source line 34): canonical
sheet name ↦ ingested table.  New entries are consed on; lookup takes
the most recent binding, matching Python dict assignment. -/
abbrev Cache := List (String × DataTable)

def lookupCache (cache : Cache) (key : String) : Option DataTable :=
  (cache.find? (fun p => p.1 = key)).map Prod.snd

deriving instance DecidableEq for Except

/-- Result of one `fetch_data_from_sheets` call: the returned table or
raised error, the cache afterwards, and how many remote reads happened. -/
structure FetchOut where
  result : Except FetchError DataTable
  cache : Cache
  remoteCalls : Nat
deriving DecidableEq

/-- `fetch_data_from_sheets` (source lines 36–98): strip+lowercase the
requested name, match it case-insensitively against `SHEET_RANGES`
(unknown name fails before any remote read), serve from the cache when
possible, otherwise read remotely, ingest, and cache under the
canonical sheet name. -/
def fetch_data_from_sheets (remote : Remote) (cache : Cache)
    (sheet_name : String) : FetchOut :=
  let norm := pyLower (pyStrip sheet_name)
  match (SHEET_RANGES.map Prod.fst).find? (fun key => pyLower key = norm) with
  | none => ⟨.error (.unknownLeague norm), cache, 0⟩
  | some actual =>
    match lookupCache cache actual with
    | some tbl => ⟨.ok tbl, cache, 0⟩
    | none =>
      let range := ((SHEET_RANGES.find? (fun p => p.1 = actual)).map
        Prod.snd).getD ""
      match processTable actual (remote range) with
      | .error e => ⟨.error e, cache, 1⟩
      | .ok df => ⟨.ok df, (actual, df) :: cache, 1⟩

/-! ### Prediction -/

/-- The `KeyError` raised by a pandas `.loc`/column lookup that misses,
carrying the missing key. -/
inductive PyError where
  | keyError (key : String)
deriving DecidableEq

/-- `df.loc[team]` row lookup (rows indexed by `Team`). -/
def locRow (df : DataTable) (team : String) : Except PyError Row :=
  match df.find? (fun r => r.team = team) with
  | some r => .ok r
  | none => .error (.keyError team)

/-- `row["col"]` cell lookup. -/
def getCol (r : Row) (col : String) : Except PyError ℚ :=
  match r.cells.find? (fun p => p.1 = col) with
  | some p => .ok p.2
  | none => .error (.keyError col)

/-- The formula of `calculate_predicted` once both rows are in hand
(source lines 154–167): the branch tests `sheet_name.lower() == "nba"`
(lowercased but not stripped); column accesses are listed in the
source's evaluation order, so the first missing column's `KeyError`
surfaces. -/
def predictVal (t1 t2 : Row) (sheet_name : String) : Except PyError PyFloat :=
  if pyLower sheet_name = "nba" then
    match getCol t1 "PPG", getCol t1 "OPP PPG",
          getCol t2 "PPG", getCol t2 "OPP PPG" with
    | .ok a, .ok b, .ok c, .ok d =>
        .ok ((PyFloat.fin a + .fin b + .fin c + .fin d) / .fin 2)
    | .error e, _, _, _ => .error e
    | _, .error e, _, _ => .error e
    | _, _, .error e, _ => .error e
    | _, _, _, .error e => .error e
  else
    match getCol t1 "PF", getCol t1 "G", getCol t1 "PA",
          getCol t2 "PF", getCol t2 "G", getCol t2 "PA" with
    | .ok pf1, .ok g1, .ok pa1, .ok pf2, .ok g2, .ok pa2 =>
        .ok (((PyFloat.fin pf1 / .fin g1) + (.fin pa1 / .fin g1)
              + (.fin pf2 / .fin g2) + (.fin pa2 / .fin g2)) / .fin 2)
    | .error e, _, _, _, _, _ => .error e
    | _, .error e, _, _, _, _ => .error e
    | _, _, .error e, _, _, _ => .error e
    | _, _, _, .error e, _, _ => .error e
    | _, _, _, _, .error e, _ => .error e
    | _, _, _, _, _, .error e => .error e

/-- `calculate_predicted` (source lines 147–167): look up both team
rows, then apply the league formula. -/
def calculate_predicted (team1 team2 : String) (df : DataTable)
    (sheet_name : String) : Except PyError PyFloat :=
  match locRow df team1, locRow df team2 with
  | .error e, _ => .error e
  | .ok _, .error e => .error e
  | .ok t1, .ok t2 => predictVal t1 t2 sheet_name

/-- The formula of `calculate_predicted` under faithful binary64
arithmetic: the same source expressions (lines 154–167), left-to-right,
with every addition and division correctly rounded as numpy performs
it.  This is the float-exact refinement of `predictVal`, used to settle
claims that turn on the final ulp. -/
def predictValF64 (t1 t2 : Row) (sheet_name : String) :
    Except PyError PyFloat :=
  if pyLower sheet_name = "nba" then
    match getCol t1 "PPG", getCol t1 "OPP PPG",
          getCol t2 "PPG", getCol t2 "OPP PPG" with
    | .ok a, .ok b, .ok c, .ok d =>
        .ok (PyFloat.divF64
          (PyFloat.addF64 (PyFloat.addF64 (PyFloat.addF64 (.fin a) (.fin b))
            (.fin c)) (.fin d)) (.fin 2))
    | .error e, _, _, _ => .error e
    | _, .error e, _, _ => .error e
    | _, _, .error e, _ => .error e
    | _, _, _, .error e => .error e
  else
    match getCol t1 "PF", getCol t1 "G", getCol t1 "PA",
          getCol t2 "PF", getCol t2 "G", getCol t2 "PA" with
    | .ok pf1, .ok g1, .ok pa1, .ok pf2, .ok g2, .ok pa2 =>
        .ok (PyFloat.divF64
          (PyFloat.addF64 (PyFloat.addF64 (PyFloat.addF64
            (PyFloat.divF64 (.fin pf1) (.fin g1))
            (PyFloat.divF64 (.fin pa1) (.fin g1)))
            (PyFloat.divF64 (.fin pf2) (.fin g2)))
            (PyFloat.divF64 (.fin pa2) (.fin g2))) (.fin 2))
    | .error e, _, _, _, _, _ => .error e
    | _, .error e, _, _, _, _ => .error e
    | _, _, .error e, _, _, _ => .error e
    | _, _, _, .error e, _, _ => .error e
    | _, _, _, _, .error e, _ => .error e
    | _, _, _, _, _, .error e => .error e

/-- `calculate_predicted` under faithful binary64 arithmetic. -/
def calculate_predictedF64 (team1 team2 : String) (df : DataTable)
    (sheet_name : String) : Except PyError PyFloat :=
  match locRow df team1, locRow df team2 with
  | .error e, _ => .error e
  | .ok _, .error e => .error e
  | .ok t1, .ok t2 => predictValF64 t1 t2 sheet_name

/-! ### The `index` route and the session history

`index` (source lines 170–222).  Template rendering and the session
cookie plumbing are glue; what is modelled is the state the route
mutates: the process-wide cache and the session's `history` list.  A
GET clears the history; a POST runs the pipeline and appends one entry
exactly when every step succeeded. -/

/-- `data["Team"].unique()`: team names in order of first appearance,
deduplicated. -/
def uniqueTeamsAux (seen : List String) : List String → List String
  | [] => []
  | x :: xs =>
    if x ∈ seen then uniqueTeamsAux seen xs
    else x :: uniqueTeamsAux (x :: seen) xs

def uniqueTeams (df : DataTable) : List String :=
  uniqueTeamsAux [] (df.map Row.team)

/-- `f"{result:.1f}"`: one-decimal formatting of the prediction.
Rounding of a finite value is to the nearest tenth (Python rounds the
underlying binary float half-to-even; the difference is immaterial to
the claims, which only use the formatted string as an opaque entry
field). -/
def format1 (x : PyFloat) : String :=
  match x with
  | .nan => "nan"
  | .inf => "inf"
  | .ninf => "-inf"
  | .fin q =>
    let n : ℤ := round (q * 10)
    (if n < 0 then "-" else "")
      ++ toString (n.natAbs / 10) ++ "." ++ toString (n.natAbs % 10)

/-- One saved query (source lines 204–209): the raw sheet name as the
user posted it, the two resolved team names, and the formatted result. -/
structure HistEntry where
  sheet : String
  team1 : String
  team2 : String
  result : String
deriving DecidableEq

structure ServerState where
  cache : Cache
  history : List HistEntry
deriving DecidableEq

/-- The POST pipeline of `index` (source lines 181–210): fetch (which
may update the cache), resolve both team names against the table's
unique teams, predict, and on success build the history entry.  Every
failure path (fetch error, unresolved team, prediction `KeyError`)
produces an error message and no entry. -/
def processQuery (remote : Remote) (cache : Cache)
    (sheet_name team1 team2 : String) : Cache × Option HistEntry :=
  let fo := fetch_data_from_sheets remote cache sheet_name
  match fo.result with
  | .error _ => (fo.cache, none)
  | .ok data =>
    let teams := uniqueTeams data
    match find_closest_match team1 teams, find_closest_match team2 teams with
    | some m1, some m2 =>
      match calculate_predicted m1 m2 data sheet_name with
      | .ok r => (fo.cache, some ⟨sheet_name, m1, m2, format1 r⟩)
      | .error _ => (fo.cache, none)
    | _, _ => (fo.cache, none)

inductive Req where
  | get : Req
  | post (sheet_name team1 team2 : String) : Req

/-- One request against `index`: GET resets the session history
(source line 179); POST appends the new entry on success and leaves
the history untouched on any failure. -/
def index_route (remote : Remote) (st : ServerState) : Req → ServerState
  | .get => { st with history := [] }
  | .post s t1 t2 =>
    let out := processQuery remote st.cache s t1 t2
    { cache := out.1, history := st.history ++ out.2.toList }

/-- A session's worth of POSTs, in order. -/
def runPosts (remote : Remote) (st : ServerState) :
    List (String × String × String) → ServerState
  | [] => st
  | (s, t1, t2) :: rest =>
      runPosts remote (index_route remote st (.post s t1 t2)) rest

/-- The entries the successful queries of a run produce, in query
order (a failed query contributes nothing). -/
def postEntries (remote : Remote) (cache : Cache) :
    List (String × String × String) → List HistEntry
  | [] => []
  | (s, t1, t2) :: rest =>
    let out := processQuery remote cache s t1 t2
    out.2.toList ++ postEntries remote out.1 rest

/-! ### Resolver lemmas -/

theorem foldlMax_mem (xs : List (ℚ × String)) (a : ℚ × String) :
    xs.foldl (fun best y => if pairGtB y best then y else best) a ∈ a :: xs := by
  induction xs generalizing a with
  | nil => simp
  | cons y ys ih =>
    rw [List.foldl_cons]
    by_cases hb : pairGtB y a
    · rw [if_pos hb]
      rcases List.mem_cons.mp (ih y) with h1 | h1 <;> simp [h1]
    · rw [if_neg hb]
      rcases List.mem_cons.mp (ih a) with h1 | h1 <;> simp [h1]

theorem max1_mem {l : List (ℚ × String)} {p : ℚ × String}
    (h : max1 l = some p) : p ∈ l := by
  match l with
  | [] => simp [max1] at h
  | x :: xs =>
    simp only [max1, Option.some.injEq] at h
    exact h ▸ foldlMax_mem xs x

/-- Anything `find_closest_match` returns is a candidate whose score
reached the cutoff. -/
theorem fcm_some_spec {input r : String} {cs : List String}
    (h : find_closest_match input cs = some r) :
    r ∈ cs ∧ 3 / 5 ≤ score r.data input.data := by
  simp only [find_closest_match, get_close_matches1, Option.map_eq_some'] at h
  obtain ⟨p, hp, hpr⟩ := h
  have hmem := max1_mem hp
  rw [List.mem_filterMap] at hmem
  obtain ⟨c, hc, hfc⟩ := hmem
  by_cases hcond : realQuickScore c.data input.data ≥ 3 / 5 ∧
      quickScore c.data input.data ≥ 3 / 5 ∧ score c.data input.data ≥ 3 / 5
  · rw [if_pos hcond] at hfc
    injection hfc with hfc'
    subst hfc'
    subst hpr
    exact ⟨hc, hcond.2.2⟩
  · rw [if_neg hcond] at hfc
    exact absurd hfc (by simp)

/-- When every candidate scores below the cutoff, the filtered list is
empty and the resolver returns `none`. -/
theorem fcm_none_of_low {input : String} {cs : List String}
    (h : ∀ c ∈ cs, score c.data input.data < 3 / 5) :
    find_closest_match input cs = none := by
  simp only [find_closest_match, get_close_matches1]
  have hnil : cs.filterMap (fun x =>
      if realQuickScore x.data input.data ≥ 3 / 5 ∧
         quickScore x.data input.data ≥ 3 / 5 ∧
         score x.data input.data ≥ 3 / 5
      then some (score x.data input.data, x) else none) = [] := by
    rw [List.filterMap_eq_nil_iff]
    intro c hc
    rw [if_neg]
    intro hcond
    exact absurd hcond.2.2 (not_le.mpr (h c hc))
  rw [hnil]
  rfl

theorem uniqueTeamsAux_subset {x : String} :
    ∀ (seen l : List String), x ∈ uniqueTeamsAux seen l → x ∈ l := by
  intro seen l
  induction l generalizing seen with
  | nil => simp [uniqueTeamsAux]
  | cons y ys ih =>
    simp only [uniqueTeamsAux]
    by_cases hy : y ∈ seen
    · rw [if_pos hy]
      intro h
      exact List.mem_cons_of_mem y (ih _ h)
    · rw [if_neg hy]
      intro h
      rcases List.mem_cons.mp h with h1 | h1
      · simp [h1]
      · exact List.mem_cons_of_mem y (ih _ h1)

/-! ### Claim theorems: resolver -/

set_option maxRecDepth 40000 in
unseal Rat.mul Rat.inv Rat.add Rat.sub in
/-- C1 (counterexample): the input `"b"`, lowercased and trimmed, is a
substring of the lone candidate `"aaab"` lowercased and trimmed, yet
`find_closest_match` returns `none` rather than that candidate — the
claimed containment pass does not exist in the code. -/
theorem c1_counterexample :
    strContains (specNormalize "aaab") (specNormalize "b") = true ∧
    find_closest_match "b" ["aaab"] = none := by
  decide

/-- C1 (amended): the resolver has no containment pass — even when the
normalized input is a substring of some candidate, an input scoring
below the 0.6 cutoff against every candidate resolves to `none`
(stated for inputs shorter than 200 characters, where the embedding of
difflib is exact). -/
theorem c1_no_containment_pass :
    ∀ (input : String) (cs : List String),
      input.data.length < 200 →
      (∃ c ∈ cs, strContains (specNormalize c) (specNormalize input) = true) →
      (∀ c ∈ cs, score c.data input.data < 3 / 5) →
      find_closest_match input cs = none :=
  fun _ _ _ _ hlow => fcm_none_of_low hlow

set_option maxRecDepth 40000 in
unseal Rat.mul Rat.inv Rat.add Rat.sub in
/-- C1 (witness): the amended statement evaluated at the substring
input `"b"` against the candidate list `["aaab"]`. -/
theorem c1_witness : find_closest_match "b" ["aaab"] = none :=
  c1_no_containment_pass "b" ["aaab"] (by decide)
    ⟨"aaab", by decide, by decide⟩ (by decide)

set_option maxRecDepth 40000 in
unseal Rat.mul Rat.inv Rat.add Rat.sub in
/-- C3 (counterexample): the input `"abcd"` has no containment match in
`["abxy"]` and its similarity to `"abxy"` is `1/2`, at or above the
claimed default cutoff of about `0.3` — yet `find_closest_match`
returns `none`, because the code's hardcoded cutoff is `0.6`. -/
theorem c3_counterexample :
    strContains (specNormalize "abxy") (specNormalize "abcd") = false ∧
    score "abxy".data "abcd".data = 1 / 2 ∧
    (3 / 10 : ℚ) ≤ 1 / 2 ∧
    find_closest_match "abcd" ["abxy"] = none := by
  decide

/-- C3 (amended): the approximate-match pass accepts a candidate iff
its similarity score meets the hardcoded cutoff `0.6` (not a
configurable ≈0.3): an input scoring below `0.6` against every
candidate resolves to `none`, and any returned candidate scored at
least `0.6`. -/
theorem c3_cutoff_is_point_six :
    (∀ (input : String) (cs : List String),
        input.data.length < 200 →
        (∀ c ∈ cs, score c.data input.data < 3 / 5) →
        find_closest_match input cs = none) ∧
    (∀ (input r : String) (cs : List String),
        find_closest_match input cs = some r →
        3 / 5 ≤ score r.data input.data) :=
  ⟨fun _ _ _ hlow => fcm_none_of_low hlow,
   fun _ _ _ h => (fcm_some_spec h).2⟩

set_option maxRecDepth 40000 in
unseal Rat.mul Rat.inv Rat.add Rat.sub in
/-- C3 (witness): the amended statement evaluated concretely — `"qz"`
scores below `0.6` against `["abxy"]` and resolves to `none`, while the
accepted exact match `"abxy"` scored at least `0.6`. -/
theorem c3_witness :
    find_closest_match "qz" ["abxy"] = none ∧
    (3 / 5 : ℚ) ≤ score "abxy".data "abxy".data :=
  ⟨c3_cutoff_is_point_six.1 "qz" ["abxy"] (by decide) (by decide),
   c3_cutoff_is_point_six.2 "abxy" "abxy" ["abxy"] (by decide)⟩

/-- C10 (confirmed): the resolver returns `none` or an element of the
candidate list, and a name resolved against a table's unique team list
is present in that table, so the subsequent `df.loc` row lookup
succeeds. -/
theorem c10_resolver_member :
    (∀ (input r : String) (cs : List String),
        find_closest_match input cs = some r → r ∈ cs) ∧
    (∀ (df : DataTable) (input r : String),
        find_closest_match input (uniqueTeams df) = some r →
        ∃ row, locRow df r = .ok row) := by
  constructor
  · intro input r cs h
    exact (fcm_some_spec h).1
  · intro df input r h
    have hmem : r ∈ df.map Row.team :=
      uniqueTeamsAux_subset _ _ (fcm_some_spec h).1
    rw [List.mem_map] at hmem
    obtain ⟨row, hrow, hteam⟩ := hmem
    have hsome : (df.find? (fun rr => rr.team = r)).isSome := by
      rw [List.find?_isSome]
      exact ⟨row, hrow, by simp [hteam]⟩
    rcases hfind : df.find? (fun rr => rr.team = r) with _ | row'
    · rw [hfind] at hsome
      simp at hsome
    · exact ⟨row', by simp [locRow, hfind]⟩

set_option maxRecDepth 40000 in
unseal Rat.mul Rat.inv Rat.add Rat.sub in
/-- C10 (witness): both parts evaluated at a concrete resolution —
`"lakers"` resolves to the listed candidate `"Lakers"`, and against a
one-row table the subsequent row lookup succeeds. -/
theorem c10_witness :
    ("Lakers" ∈ ["Lakers", "Celtics"]) ∧
    (∃ row, locRow [⟨"Lakers", [("PPG", 115), ("OPP PPG", 110)]⟩]
        "Lakers" = .ok row) :=
  ⟨c10_resolver_member.1 "lakers" "Lakers" ["Lakers", "Celtics"] (by decide),
   c10_resolver_member.2 [⟨"Lakers", [("PPG", 115), ("OPP PPG", 110)]⟩]
     "lakers" "Lakers" (by decide)⟩

/-! ### Claim theorems: prediction -/

/-- The four-term sums in both formula branches are invariant under
swapping the two teams' contributions, `nan` and infinities included:
the result of a chain of `PyFloat` additions depends only on the
multiset of summands. -/
theorem PyFloat.add_perm (w x y z : PyFloat) :
    ((w + x) + y) + z = ((y + z) + w) + x := by
  cases w <;> cases x <;> cases y <;> cases z <;>
    simp [PyFloat.add_def, PyFloat.add] <;> ring

/-- `predictVal` is symmetric in the two rows, in both branches. -/
theorem predictVal_symm (t1 t2 : Row) (s : String) (r : PyFloat)
    (h : predictVal t1 t2 s = .ok r) : predictVal t2 t1 s = .ok r := by
  unfold predictVal at h ⊢
  split_ifs at h ⊢
  · split at h <;> try exact Except.noConfusion h
    rename_i a b c d ha hb hc hd
    rw [hc, hd, ha, hb]
    simp only [Except.ok.injEq] at h ⊢
    rw [← h, PyFloat.add_perm]
  · split at h <;> try exact Except.noConfusion h
    rename_i pf1 g1 pa1 pf2 g2 pa2 hpf1 hg1 hpa1 hpf2 hg2 hpa2
    rw [hpf2, hg2, hpa2, hpf1, hg1, hpa1]
    simp only [Except.ok.injEq] at h ⊢
    rw [← h, PyFloat.add_perm]

/-- Reducing `calculate_predicted` once both row lookups are known. -/
theorem calculate_predicted_eq (df : DataTable) (a b s : String)
    (ra rb : Row) (ha : locRow df a = .ok ra) (hb : locRow df b = .ok rb) :
    calculate_predicted a b df s = predictVal ra rb s := by
  unfold calculate_predicted
  rw [ha, hb]

set_option maxRecDepth 40000 in
unseal Rat.mul Rat.inv Rat.add Rat.sub in
/-- C7 (counterexample): under the program's actual binary64
arithmetic, swapping the teams changes the returned value.  With PPG
cells 0.1, 0.2 for one team and 0.3, 0.3 for the other (each stored as
the nearest double), the source expression sums the same four values in
two different association orders: the forward order yields the rational
of 0.45000000000000007 and the swapped order that of
0.44999999999999996 — exact equality under swap does not hold on the
program. -/
theorem c7_counterexample :
    calculate_predictedF64 "T1" "T2"
      [⟨"T1", [("PPG", coerceCellF64 (some "0.1")),
               ("OPP PPG", coerceCellF64 (some "0.2"))]⟩,
       ⟨"T2", [("PPG", coerceCellF64 (some "0.3")),
               ("OPP PPG", coerceCellF64 (some "0.3"))]⟩] "NBA" ≠
    calculate_predictedF64 "T2" "T1"
      [⟨"T1", [("PPG", coerceCellF64 (some "0.1")),
               ("OPP PPG", coerceCellF64 (some "0.2"))]⟩,
       ⟨"T2", [("PPG", coerceCellF64 (some "0.3")),
               ("OPP PPG", coerceCellF64 (some "0.3"))]⟩] "NBA" := by
  decide

/-- C7 (amended): swapping `team1` and `team2` leaves the value
returned by `calculate_predicted` unchanged under exact arithmetic on
the stored cell values, in both the PPG branch and the
per-game-average branch — both orders sum the same four per-team
terms, special values included.  On the program itself this symmetry
is exact only up to the final ulp: the two orders associate the float64
sums differently (see the counterexample). -/
theorem c7_predict_symmetric :
    ∀ (df : DataTable) (sheet_name team1 team2 : String) (r : PyFloat),
      calculate_predicted team1 team2 df sheet_name = .ok r →
      calculate_predicted team2 team1 df sheet_name = .ok r := by
  intro df s t1 t2 r h
  unfold calculate_predicted at h ⊢
  split at h
  · exact Except.noConfusion h
  · exact Except.noConfusion h
  · rename_i r1 r2 h1 h2
    rw [h1, h2]
    exact predictVal_symm r1 r2 s r h

set_option maxRecDepth 40000 in
unseal Rat.mul Rat.inv Rat.add Rat.sub in
/-- C7 (witness): the amended exact-arithmetic symmetry evaluated at a
concrete two-team NBA table and at a concrete two-team NFL table. -/
theorem c7_witness :
    calculate_predicted "Celtics" "Lakers"
      [⟨"Lakers", [("PPG", 115), ("OPP PPG", 110)]⟩,
       ⟨"Celtics", [("PPG", 118), ("OPP PPG", 108)]⟩] "NBA" =
      .ok (.fin (451 / 2)) ∧
    calculate_predicted "B" "A"
      [⟨"A", [("G", 10), ("PF", 280), ("PA", 220)]⟩,
       ⟨"B", [("G", 10), ("PF", 300), ("PA", 240)]⟩] "NFL" =
      .ok (.fin 52) :=
  ⟨c7_predict_symmetric _ "NBA" "Lakers" "Celtics" _ (by decide),
   c7_predict_symmetric _ "NFL" "A" "B" _ (by decide)⟩

set_option maxRecDepth 40000 in
unseal Rat.mul Rat.inv Rat.add Rat.sub in
/-- C2 (counterexample): with team `A` having `G = 0` in a
per-game-average league, `calculate_predicted` succeeds and returns
positive infinity — no `StatsLookupError` (or any error) is raised;
indeed no such error kind exists in the code. -/
theorem c2_counterexample :
    getCol ⟨"A", [("G", 0), ("PF", 280), ("PA", 220)]⟩ "G" = .ok 0 ∧
    calculate_predicted "A" "B"
      [⟨"A", [("G", 0), ("PF", 280), ("PA", 220)]⟩,
       ⟨"B", [("G", 10), ("PF", 300), ("PA", 240)]⟩] "NFL" =
      .ok PyFloat.inf := by
  decide

/-- C2 (amended): in a per-game-average league, a team with zero games
played (and positive points-for and points-against) makes
`calculate_predicted` return positive infinity — the division by zero
propagates a non-finite value instead of failing with any error. -/
theorem c2_zero_games_gives_inf :
    ∀ (df : DataTable) (sheet_name team1 team2 : String) (t1 t2 : Row)
      (pf1 pa1 pf2 g2 pa2 : ℚ),
      pyLower sheet_name ≠ "nba" →
      locRow df team1 = .ok t1 → locRow df team2 = .ok t2 →
      getCol t1 "PF" = .ok pf1 → getCol t1 "G" = .ok 0 →
      getCol t1 "PA" = .ok pa1 →
      getCol t2 "PF" = .ok pf2 → getCol t2 "G" = .ok g2 →
      getCol t2 "PA" = .ok pa2 →
      0 < pf1 → 0 < pa1 → 0 < g2 →
      calculate_predicted team1 team2 df sheet_name = .ok PyFloat.inf := by
  intro df s team1 team2 t1 t2 pf1 pa1 pf2 g2 pa2 hs h1 h2 hpf1 hg1 hpa1
    hpf2 hg2 hpa2 hpf1pos hpa1pos hg2pos
  rw [calculate_predicted_eq df team1 team2 s t1 t2 h1 h2]
  unfold predictVal
  rw [if_neg hs, hpf1, hg1, hpa1, hpf2, hg2, hpa2]
  simp [PyFloat.div_def, PyFloat.add_def, PyFloat.div, PyFloat.add,
    hpf1pos, hpa1pos, ne_of_gt hg2pos, (by norm_num : ¬ (2 : ℚ) < 0)]

set_option maxRecDepth 40000 in
unseal Rat.mul Rat.inv Rat.add Rat.sub in
/-- C2 (witness): the amended statement evaluated at the concrete
zero-games table. -/
theorem c2_witness :
    calculate_predicted "A" "B"
      [⟨"A", [("G", 0), ("PF", 282), ("PA", 222)]⟩,
       ⟨"B", [("G", 10), ("PF", 300), ("PA", 240)]⟩] "NCAAF" =
      .ok PyFloat.inf :=
  c2_zero_games_gives_inf _ "NCAAF" "A" "B"
    ⟨"A", [("G", 0), ("PF", 282), ("PA", 222)]⟩
    ⟨"B", [("G", 10), ("PF", 300), ("PA", 240)]⟩
    282 222 300 10 240 (by decide) (by decide) (by decide) (by decide)
    (by decide) (by decide) (by decide) (by decide) (by decide)
    (by decide) (by decide) (by decide)

/-- `predictVal` only consults the lowercased sheet name. -/
theorem predictVal_key (a b : Row) (k1 k2 : String)
    (hk : pyLower k1 = pyLower k2) : predictVal a b k1 = predictVal a b k2 := by
  unfold predictVal
  rw [hk]

set_option maxRecDepth 40000 in
unseal Rat.mul Rat.inv Rat.add Rat.sub in
/-- C4 (counterexample): `"NBA"` and `" NBA"` denote the same league —
both normalize to the supported key `"nba"` — yet on an NBA-schema
table the first key selects the PPG formula while the
whitespace-variant selects the per-game formula, which then fails
looking up the absent `"PF"` column: the branch depends on the textual
form of the key, not only on the league's identity. -/
theorem c4_counterexample :
    pyLower (pyStrip "NBA") = pyLower (pyStrip " NBA") ∧
    calculate_predicted "Lakers" "Celtics"
      [⟨"Lakers", [("PPG", 115), ("OPP PPG", 110)]⟩,
       ⟨"Celtics", [("PPG", 118), ("OPP PPG", 108)]⟩] "NBA" =
      .ok (.fin (451 / 2)) ∧
    calculate_predicted "Lakers" "Celtics"
      [⟨"Lakers", [("PPG", 115), ("OPP PPG", 110)]⟩,
       ⟨"Celtics", [("PPG", 118), ("OPP PPG", 108)]⟩] " NBA" =
      .error (.keyError "PF") := by
  decide

/-- C4 (amended): formula selection is a fixed two-way branch on the
lowercased (but not trimmed) key text: two keys with the same
lowercasing — in particular keys differing only in case — always give
identical predictions, while a key with surrounding whitespace selects
the per-game branch even when it denotes the NBA. -/
theorem c4_branch_on_lowered_key :
    ∀ (k1 k2 : String), pyLower k1 = pyLower k2 →
      ∀ (df : DataTable) (team1 team2 : String),
        calculate_predicted team1 team2 df k1 =
          calculate_predicted team1 team2 df k2 := by
  intro k1 k2 hk df t1 t2
  unfold calculate_predicted
  split
  · rfl
  · rfl
  · exact predictVal_key _ _ k1 k2 hk

set_option maxRecDepth 40000 in
unseal Rat.mul Rat.inv Rat.add Rat.sub in
/-- C4 (witness): the amended statement evaluated at the case-variant
keys `"nba"` and `"NbA"` over a concrete table. -/
theorem c4_witness :
    calculate_predicted "Lakers" "Celtics"
      [⟨"Lakers", [("PPG", 115), ("OPP PPG", 110)]⟩,
       ⟨"Celtics", [("PPG", 118), ("OPP PPG", 108)]⟩] "nba" =
    calculate_predicted "Lakers" "Celtics"
      [⟨"Lakers", [("PPG", 115), ("OPP PPG", 110)]⟩,
       ⟨"Celtics", [("PPG", 118), ("OPP PPG", 108)]⟩] "NbA" :=
  c4_branch_on_lowered_key "nba" "NbA" (by decide)
    [⟨"Lakers", [("PPG", 115), ("OPP PPG", 110)]⟩,
     ⟨"Celtics", [("PPG", 118), ("OPP PPG", 108)]⟩] "Lakers" "Celtics"

/-! ### Claim theorems: fetch, league keys and the cache -/

/-- The ingestion step can fail only with `emptyDataset` or
`missingColumn`, never with `unknownLeague`. -/
theorem processTable_not_unknown (a : String) (values : List (List String))
    (s : String) : processTable a values ≠ .error (.unknownLeague s) := by
  cases values with
  | nil => simp [processTable]
  | cons header rows =>
    simp only [processTable]
    cases hf : (requiredColumns a).find? (fun c => ¬ header.contains c) <;>
      simp [hf]

set_option maxRecDepth 40000 in
unseal Rat.mul Rat.inv Rat.add Rat.sub in
/-- C8 (counterexample): the key `" nba "` is not equal, even
case-insensitively, to any supported league key, so the claim requires
fetch to fail with an unknown-league error and no remote call — but the
code strips whitespace before matching: the fetch succeeds and performs
one remote read. -/
theorem c8_counterexample :
    (SHEET_RANGES.map Prod.fst).all
        (fun key => pyLower key != pyLower " nba ") = true ∧
    fetch_data_from_sheets
        (fun _ => [["Team", "PPG", "OPP PPG"], ["Lakers", "115", "110"]])
        [] " nba " =
      ⟨.ok [⟨"Lakers", [("PPG", 115), ("OPP PPG", 110)]⟩],
       [("NBA", [⟨"Lakers", [("PPG", 115), ("OPP PPG", 110)]⟩])], 1⟩ := by
  decide

/-- C8 (amended): fetch fails with the unknown-league error — before
any remote call, leaving the cache untouched — exactly when the
trimmed-and-lowercased key matches no supported league key; whenever
the normalized key does match one (any case variant of a supported key
in particular), no unknown-league error is raised. -/
theorem c8_unknown_league :
    ∀ (remote : Remote) (cache : Cache) (k : String),
      ((∀ key ∈ SHEET_RANGES.map Prod.fst,
          pyLower key ≠ pyLower (pyStrip k)) →
        fetch_data_from_sheets remote cache k =
          ⟨.error (.unknownLeague (pyLower (pyStrip k))), cache, 0⟩) ∧
      ((∃ key ∈ SHEET_RANGES.map Prod.fst,
          pyLower key = pyLower (pyStrip k)) →
        ∀ s, (fetch_data_from_sheets remote cache k).result ≠
          .error (.unknownLeague s)) := by
  intro remote cache k
  constructor
  · intro hall
    have hnone : (SHEET_RANGES.map Prod.fst).find?
        (fun key => pyLower key = pyLower (pyStrip k)) = none := by
      rw [List.find?_eq_none]
      intro x hx
      simpa using hall x hx
    simp only [fetch_data_from_sheets]
    rw [hnone]
  · intro hex s
    obtain ⟨key, hkmem, hkeq⟩ := hex
    have hsome : ((SHEET_RANGES.map Prod.fst).find?
        (fun key => pyLower key = pyLower (pyStrip k))).isSome := by
      rw [List.find?_isSome]
      exact ⟨key, hkmem, by simp [hkeq]⟩
    rcases hfind : (SHEET_RANGES.map Prod.fst).find?
        (fun key => pyLower key = pyLower (pyStrip k)) with _ | actual
    · rw [hfind] at hsome
      simp at hsome
    · simp only [fetch_data_from_sheets]
      rw [hfind]
      cases hc : lookupCache cache actual with
      | some tbl => simp [hc]
      | none =>
        cases hp : processTable actual (remote
            (((SHEET_RANGES.find? (fun p => p.1 = actual)).map
              Prod.snd).getD "")) with
        | error e =>
          simp only [hc, hp]
          intro hcontra
          injection hcontra with hcontra'
          exact processTable_not_unknown actual _ s (by rw [hp, hcontra'])
        | ok df => simp [hc, hp]

set_option maxRecDepth 40000 in
unseal Rat.mul Rat.inv Rat.add Rat.sub in
/-- C8 (witness): the amended statement evaluated at the unknown key
`"MLB"` (error, untouched cache, no remote call) and at the
case-variant key `"NbA"` (no unknown-league error). -/
theorem c8_witness :
    fetch_data_from_sheets
        (fun _ => [["Team", "PPG", "OPP PPG"], ["Lakers", "115", "110"]])
        [] "MLB" = ⟨.error (.unknownLeague "mlb"), [], 0⟩ ∧
    ∀ s, (fetch_data_from_sheets
        (fun _ => [["Team", "PPG", "OPP PPG"], ["Lakers", "115", "110"]])
        [] "NbA").result ≠ .error (.unknownLeague s) :=
  ⟨(c8_unknown_league
      (fun _ => [["Team", "PPG", "OPP PPG"], ["Lakers", "115", "110"]])
      [] "MLB").1 (by decide),
   (c8_unknown_league
      (fun _ => [["Team", "PPG", "OPP PPG"], ["Lakers", "115", "110"]])
      [] "NbA").2 ⟨"NBA", by decide, by decide⟩⟩

/-- A fresh cache entry is found by a lookup with its own key. -/
theorem lookupCache_cons_self (c : Cache) (k : String) (t : DataTable) :
    lookupCache ((k, t) :: c) k = some t := by
  simp [lookupCache, List.find?_cons]

/-- C5 (confirmed): a successful fetch leaves the table in the cache
under the canonical league name (the original-cased key of
`SHEET_RANGES`), and every subsequent fetch whose key normalizes the
same — any case variant in particular — returns that same cached table
with the cache unchanged and zero remote reads. -/
theorem c5_cache_after_success :
    ∀ (remote : Remote) (cache : Cache) (k : String) (tbl : DataTable)
      (cache' : Cache) (n : Nat),
      fetch_data_from_sheets remote cache k = ⟨.ok tbl, cache', n⟩ →
      (∃ actual, (SHEET_RANGES.map Prod.fst).find?
            (fun key => pyLower key = pyLower (pyStrip k)) = some actual ∧
          lookupCache cache' actual = some tbl) ∧
      (∀ k2, pyLower (pyStrip k2) = pyLower (pyStrip k) →
        fetch_data_from_sheets remote cache' k2 = ⟨.ok tbl, cache', 0⟩) := by
  intro remote cache k tbl cache' n h
  simp only [fetch_data_from_sheets] at h
  rcases hfind : (SHEET_RANGES.map Prod.fst).find?
      (fun key => pyLower key = pyLower (pyStrip k)) with _ | actual
  · simp only [hfind] at h
    simp at h
  · simp only [hfind] at h
    rcases hc : lookupCache cache actual with _ | t
    · simp only [hc] at h
      rcases hp : processTable actual (remote
          (((SHEET_RANGES.find? (fun p => p.1 = actual)).map
            Prod.snd).getD "")) with e | df
      · simp only [hp] at h
        simp at h
      · simp only [hp, FetchOut.mk.injEq, Except.ok.injEq] at h
        obtain ⟨h1, h2, h3⟩ := h
        subst h1
        subst h2
        refine ⟨⟨actual, rfl, lookupCache_cons_self _ _ _⟩, ?_⟩
        intro k2 hk2
        simp [fetch_data_from_sheets, hk2, hfind, lookupCache_cons_self]
    · simp only [hc, FetchOut.mk.injEq, Except.ok.injEq] at h
      obtain ⟨h1, h2, h3⟩ := h
      subst h1
      subst h2
      refine ⟨⟨actual, rfl, hc⟩, ?_⟩
      intro k2 hk2
      simp [fetch_data_from_sheets, hk2, hfind, hc]

set_option maxRecDepth 40000 in
unseal Rat.mul Rat.inv Rat.add Rat.sub in
/-- C5 (witness): the theorem applied to a concrete first fetch of
`"nba"` against a stub remote, instantiated at the case-variant key
`"NBA"`: the second fetch returns the cached table with no remote read. -/
theorem c5_witness :
    fetch_data_from_sheets
        (fun _ => [["Team", "PPG", "OPP PPG"], ["Lakers", "115", "110"]])
        [("NBA", [⟨"Lakers", [("PPG", 115), ("OPP PPG", 110)]⟩])] "NBA" =
      ⟨.ok [⟨"Lakers", [("PPG", 115), ("OPP PPG", 110)]⟩],
       [("NBA", [⟨"Lakers", [("PPG", 115), ("OPP PPG", 110)]⟩])], 0⟩ :=
  (c5_cache_after_success
      (fun _ => [["Team", "PPG", "OPP PPG"], ["Lakers", "115", "110"]])
      [] "nba" [⟨"Lakers", [("PPG", 115), ("OPP PPG", 110)]⟩]
      [("NBA", [⟨"Lakers", [("PPG", 115), ("OPP PPG", 110)]⟩])] 1
      (by decide)).2 "NBA" (by decide)

/-- The cell names a row is given are exactly the non-`Team` header
columns, in order. -/
theorem rowCells_names (raw : List String) :
    ∀ (header : List String) (i : Nat),
      (rowCells i header raw).map Prod.fst =
        header.filter (fun c => c ≠ "Team") := by
  intro header
  induction header with
  | nil => intro i; simp [rowCells]
  | cons c cs ih =>
    intro i
    by_cases hc : c = "Team"
    · simp [rowCells, hc, ih]
    · simp [rowCells, hc, ih]

/-- Every cell a row is given is a non-`Team` column whose value is the
numeric coercion of the matching raw cell. -/
theorem rowCells_mem (raw : List String) :
    ∀ (header : List String) (i : Nat) (p : String × ℚ),
      p ∈ rowCells i header raw →
      p.1 ≠ "Team" ∧ ∃ j, header.get? j = some p.1 ∧
        p.2 = coerceCell (raw.get? (i + j)) := by
  intro header
  induction header with
  | nil => intro i p hp; simp [rowCells] at hp
  | cons c cs ih =>
    intro i p hp
    by_cases hc : c = "Team"
    · rw [rowCells, if_pos hc] at hp
      obtain ⟨hne, j, hj, hv⟩ := ih (i + 1) p hp
      refine ⟨hne, j + 1, by simpa using hj, ?_⟩
      have hidx : i + 1 + j = i + (j + 1) := by omega
      rw [hv, hidx]
    · rw [rowCells, if_neg hc] at hp
      rcases List.mem_cons.mp hp with h1 | h1
      · subst h1
        exact ⟨hc, 0, rfl, by simp⟩
      · obtain ⟨hne, j, hj, hv⟩ := ih (i + 1) p h1
        refine ⟨hne, j + 1, by simpa using hj, ?_⟩
        have hidx : i + 1 + j = i + (j + 1) := by omega
        rw [hv, hidx]

/-- C6 (confirmed): ingestion rejects no row (one table row per raw
data row); each row's cells are exactly the non-`Team` header columns;
every stored cell is the numeric coercion of the raw cell under the
same column position; and a missing or unparsable raw cell coerces to
exactly `0`. -/
theorem c6_coercion_policy :
    ∀ (actual : String) (header : List String)
      (dataRows : List (List String)) (tbl : DataTable),
      processTable actual (header :: dataRows) = .ok tbl →
      tbl.length = dataRows.length ∧
      (∀ r ∈ tbl, r.cells.map Prod.fst =
        header.filter (fun c => c ≠ "Team")) ∧
      (∀ iRow raw r, dataRows.get? iRow = some raw →
        tbl.get? iRow = some r →
        ∀ p ∈ r.cells, p.1 ≠ "Team" ∧ ∃ j, header.get? j = some p.1 ∧
          p.2 = coerceCell (raw.get? j)) ∧
      (∀ cell, cell.bind parseNumeric = none → coerceCell cell = 0) := by
  intro actual header dataRows tbl h
  simp only [processTable] at h
  rcases hf : (requiredColumns actual).find?
      (fun c => ¬ header.contains c) with _ | badCol
  swap
  · simp only [hf] at h
    exact Except.noConfusion h
  simp only [hf, Except.ok.injEq] at h
  subst h
  refine ⟨by simp, ?_, ?_, ?_⟩
  · intro r hr
    rw [List.mem_map] at hr
    obtain ⟨raw, hraw, hr'⟩ := hr
    rw [← hr']
    exact rowCells_names raw header 0
  · intro iRow raw r hraw hr p hp
    rw [List.get?_map, hraw] at hr
    simp only [Option.map_some', Option.some.injEq] at hr
    subst hr
    obtain ⟨hne, j, hj, hv⟩ := rowCells_mem raw header 0 p hp
    exact ⟨hne, j, hj, by simpa using hv⟩
  · intro cell hcell
    simp [coerceCell, hcell]

set_option maxRecDepth 40000 in
unseal Rat.mul Rat.inv Rat.add Rat.sub in
/-- C6 (witness): the theorem applied to a concrete ingestion in which
`"10"` parses, `"abc"` fails coercion and the `PA` cell is missing —
the row survives with `PF` and `PA` both exactly `0`. -/
theorem c6_witness :
    ([⟨"A", [("G", 10), ("PF", 0), ("PA", 0)]⟩] : DataTable).length =
      [["A", "10", "abc"]].length ∧
    coerceCell (some "abc") = 0 := by
  have h := c6_coercion_policy "NFL" ["Team", "G", "PF", "PA"]
    [["A", "10", "abc"]] [⟨"A", [("G", 10), ("PF", 0), ("PA", 0)]⟩]
    (by decide)
  exact ⟨h.1, h.2.2.2 (some "abc") (by decide)⟩

/-! ### Claim theorems: session history -/

/-- C9 (confirmed): a GET resets the session history to empty; a POST
appends exactly the successful query's entry and nothing on failure
(existing entries are never removed or reordered); and a session of N
POSTs of which exactly the successful ones produce entries leaves the
history equal to the prior history followed by those entries in
insertion order. -/
theorem c9_history_append_only :
    ∀ (remote : Remote) (st : ServerState),
      (index_route remote st .get).history = [] ∧
      (∀ s t1 t2, (index_route remote st (.post s t1 t2)).history =
        st.history ++ ((processQuery remote st.cache s t1 t2).2).toList) ∧
      (∀ s t1 t2, (processQuery remote st.cache s t1 t2).2 = none →
        (index_route remote st (.post s t1 t2)).history = st.history) ∧
      (∀ s t1 t2 e, (processQuery remote st.cache s t1 t2).2 = some e →
        (index_route remote st (.post s t1 t2)).history =
          st.history ++ [e]) ∧
      (∀ posts, (runPosts remote st posts).history =
        st.history ++ postEntries remote st.cache posts) := by
  intro remote st
  refine ⟨rfl, fun s t1 t2 => rfl, ?_, ?_, ?_⟩
  · intro s t1 t2 hnone
    simp [index_route, hnone]
  · intro s t1 t2 e hsome
    simp [index_route, hsome]
  · intro posts
    induction posts generalizing st with
    | nil => simp [runPosts, postEntries]
    | cons q rest ih =>
      obtain ⟨s, t1, t2⟩ := q
      simp only [runPosts, postEntries]
      rw [ih (index_route remote st (.post s t1 t2))]
      simp [index_route, List.append_assoc]

set_option maxRecDepth 100000 in
unseal Rat.mul Rat.inv Rat.add Rat.sub in
/-- C9 (witness): the theorem applied to a concrete session — a failing
query (unknown league) appends nothing, and a successful query appends
exactly its entry. -/
theorem c9_witness :
    (index_route
        (fun _ => [["Team", "PPG", "OPP PPG"], ["Lakers", "115", "110"],
          ["Celtics", "118", "108"]])
        ⟨[], []⟩ (.post "MLB" "a" "b")).history = [] ∧
    (index_route
        (fun _ => [["Team", "PPG", "OPP PPG"], ["Lakers", "115", "110"],
          ["Celtics", "118", "108"]])
        ⟨[], []⟩ (.post "nba" "lakers" "celtics")).history =
      [⟨"nba", "Lakers", "Celtics", "225.5"⟩] :=
  ⟨(c9_history_append_only
      (fun _ => [["Team", "PPG", "OPP PPG"], ["Lakers", "115", "110"],
        ["Celtics", "118", "108"]])
      ⟨[], []⟩).2.2.1 "MLB" "a" "b" (by decide),
   (c9_history_append_only
      (fun _ => [["Team", "PPG", "OPP PPG"], ["Lakers", "115", "110"],
        ["Celtics", "118", "108"]])
      ⟨[], []⟩).2.2.2.1 "nba" "lakers" "celtics"
      ⟨"nba", "Lakers", "Celtics", "225.5"⟩ (by decide)⟩

end BettingApp
